import Mathlib

/-
  Shallow embedding of the pg-backup-scheduler repository (Go) for checking
  its natural-language specification.

  Sources embedded:
  - internal/metadata/metadata.go   (run state store: latest.json / running.json)
  - internal/docker (RunOnceWithConfig exit-code handling)
  - internal/retention (CleanupOldBackups / CleanupAllDatabases)
  - internal/backup (CreateBackup dump pipeline, createFailedManifest)
  - internal/service/service.go (RunBackupJob, RunBackupForProject, promotion)

  Machine integers are Nat/Int; filesystem I/O that the Go code only logs on
  failure is modelled as succeeding, while failures that change control flow
  (dump phases, archive creation, manifest save, lock-file parse) are inputs
  of the embedding.
-/

namespace PgBackup

/-! ### String helpers

Go compares strings byte-wise with `<`; for the ASCII date strings used by the
retention sweeper this coincides with code-point lexicographic order, which we
implement as an executable Bool-valued comparison on the character lists. -/

def ltbChars : List Char → List Char → Bool
  | [], [] => false
  | [], _ :: _ => true
  | _ :: _, [] => false
  | a :: as, b :: bs =>
      if a.toNat < b.toNat then true
      else if b.toNat < a.toNat then false
      else ltbChars as bs

def strLtb (a b : String) : Bool :=
  ltbChars a.data b.data

/-- A string with a non-empty prefix appended to anything is non-empty. -/
theorem prefixed_ne_empty (p e : String) (hp : 0 < p.length) : p ++ e ≠ "" := by
  intro heq
  have hl := congrArg String.length heq
  simp [String.length_append] at hl
  omega

/-! ### Isolated Command Runner: exit-code handling

From docker.RunOnceWithConfig: after the container exits, a nonzero exit code
is turned into an error embedding the captured stderr, falling back to the
captured stdout, falling back to the bare exit code; a zero exit code yields
no error. `none` models the nil error return. -/

def exitError (exitCode : Int) (stderrStr stdoutStr : String) : Option String :=
  if exitCode ≠ 0 then
    if stderrStr ≠ "" then
      some ("container exited with code " ++ toString exitCode ++ ": " ++ stderrStr)
    else if stdoutStr ≠ "" then
      some ("container exited with code " ++ toString exitCode ++ ": " ++ stdoutStr)
    else
      some ("container exited with code " ++ toString exitCode)
  else
    none

/-! ### Retention Sweeper

From retention.CleanupOldBackups: the database's backup tree is a directory
listing (`none` when it does not exist).  The loop deletes every directory
entry whose name sorts before the cutoff string, counting deletions, and
leaves files and later-named directories alone. -/

structure DirEntry where
  name : String
  isDir : Bool
deriving DecidableEq

def shouldDelete (cutoffDateStr : String) (e : DirEntry) : Bool :=
  e.isDir && strLtb e.name cutoffDateStr

/-- The body of the deletion loop over the directory entries: returns the
number of directories removed and the surviving entries, in order. -/
def cleanupEntries (cutoffDateStr : String) : List DirEntry → Nat × List DirEntry
  | [] => (0, [])
  | e :: rest =>
      let r := cleanupEntries cutoffDateStr rest
      if e.isDir && strLtb e.name cutoffDateStr then (r.1 + 1, r.2)
      else (r.1, e :: r.2)

/-- CleanupOldBackups: non-existent tree is not an error (zero removed);
otherwise sweep the entries against the cutoff. -/
def cleanupOldBackups (dbTree : Option (List DirEntry)) (cutoffDateStr : String) :
    Nat × Option (List DirEntry) :=
  match dbTree with
  | none => (0, none)
  | some entries =>
      let r := cleanupEntries cutoffDateStr entries
      (r.1, some r.2)

/-! ### Run State Store write traces

From metadata.WriteLastRun / metadata.WriteServiceStatus: both MkdirAll the
metadata directory, marshal the record, and then call os.WriteFile on the
canonical path.  os.WriteFile opens with O_CREATE|O_TRUNC and then writes the
bytes, so its observable trace is a truncation step followed by a write step
on the canonical file itself — there is no temporary file and no rename. -/

inductive FileContent
  | absent
  | truncated
  | whole (data : String)
deriving DecidableEq

inductive FsOp
  | mkdirAll (path : String)
  | truncateFile (path : String)
  | writeBytes (path : String) (data : String)
deriving DecidableEq

/-- os.WriteFile(path, data): truncate, then write the whole buffer. -/
def writeFileOps (path data : String) : List FsOp :=
  [FsOp.truncateFile path, FsOp.writeBytes path data]

def metadataDirPath (baseDir : String) : String :=
  baseDir ++ "/metadata"

def latestRunPath (baseDir : String) : String :=
  metadataDirPath baseDir ++ "/latest.json"

def runningJsonPath (baseDir : String) : String :=
  metadataDirPath baseDir ++ "/running.json"

/-- WriteLastRun: mkdir metadata dir, then WriteFile latest.json in place. -/
def writeLastRunOps (baseDir marshalled : String) : List FsOp :=
  FsOp.mkdirAll (metadataDirPath baseDir) :: writeFileOps (latestRunPath baseDir) marshalled

/-- WriteServiceStatus: mkdir metadata dir, then WriteFile running.json in place. -/
def writeServiceStatusOps (baseDir marshalled : String) : List FsOp :=
  FsOp.mkdirAll (metadataDirPath baseDir) :: writeFileOps (runningJsonPath baseDir) marshalled

/-- Effect of one filesystem operation on the content stored at a watched path. -/
def FsOp.applyAt (watched : String) (c : FileContent) : FsOp → FileContent
  | .mkdirAll _ => c
  | .truncateFile p => if p = watched then .truncated else c
  | .writeBytes p d => if p = watched then .whole d else c

/-- All states of the watched file a concurrent reader can observe while the
operation list executes: the content before, between, and after each step. -/
def observationsAt (watched : String) (c : FileContent) : List FsOp → List FileContent
  | [] => [c]
  | op :: ops => c :: observationsAt watched (op.applyAt watched c) ops

/-! ### Run State Store reads

From metadata.ReadServiceStatus: a missing running.json yields a fresh
not-running status; a file that fails to parse yields a nil status pointer
together with an error, modelled as `none` (the callers in service.go only
log that error and then dereference the nil pointer). -/

inductive RunningContent
  | absent
  | valid (running : Bool)
  | invalid
deriving DecidableEq

def readServiceStatus : RunningContent → Option Bool
  | .absent => some false
  | .valid b => some b
  | .invalid => none

/-! ### Dump Pipeline (backup.CreateBackup)

The pipeline is embedded over an oracle of phase outcomes: each dump phase
either succeeds or fails with a captured error message, the archive phase can
fail at file creation or midway through writing, and saving the manifest json
can fail (which the Go code only logs).  Version detection and metrics are
best-effort and never change control flow, so only their outputs appear.

The second component of the result is the list of files present in the
pipeline's staging directory (the outputDir passed by the service) when
CreateBackup returns: per-phase dump files live in the runID subdirectory,
which the success path deletes after archiving; failure paths return early
and leave it in place. -/

structure File where
  name : String
  size : Int
deriving DecidableEq

structure BackupManifest where
  runID : String
  databaseID : String
  status : String
  files : List File
  error : String
  pgVersion : String
  databaseSizeBytes : Option Int
deriving DecidableEq

inductive ArchiveOutcome
  | ok (size : Int)
  | createFailed (msg : String)
  | writeFailed (msg : String)
deriving DecidableEq

structure PhaseResults where
  rolesErr : Option String
  schemaErr : Option String
  dataErr : Option String
  archive : ArchiveOutcome
  saveManifestErr : Option String
  pgVersion : String
  databaseSizeBytes : Option Int
deriving DecidableEq

/-- Files the pipeline and promotion code deal with, identified by role; the
path each one occupies inside the staging directory is `StagedFile.path`. -/
inductive StagedFile
  | rolesSql
  | schemaSql
  | dataSql
  | archiveTarGz
  | archiveTarGzTruncated
  | manifestJson
deriving DecidableEq

def StagedFile.path (runID : String) : StagedFile → String
  | .rolesSql => runID ++ "/roles.sql"
  | .schemaSql => runID ++ "/schema.sql"
  | .dataSql => runID ++ "/data.sql"
  | .archiveTarGz => "backup-" ++ runID ++ ".tar.gz"
  | .archiveTarGzTruncated => "backup-" ++ runID ++ ".tar.gz"
  | .manifestJson => "manifest-" ++ runID ++ ".json"

/-- run-id format from CreateBackup: identifier-YYYY-MM-DD-HHMMSS. -/
def runIDFor (identifier backupDate timeOfDay : String) : String :=
  identifier ++ "-" ++ backupDate ++ "-" ++ timeOfDay

/-- createFailedManifest: status failed, the wrapped error, no files, and the
zero values for the metric fields. -/
def createFailedManifest (runID dbID : String) (errMsg : String) : BackupManifest :=
  { runID := runID, databaseID := dbID, status := "failed", files := [],
    error := errMsg, pgVersion := "", databaseSizeBytes := none }

/-- CreateBackup: roles, schema, data dumps in order, then archive, stat, and
manifest save; the first failing phase short-circuits to a failed manifest
carrying the phase-qualified error.  Returns the manifest together with the
staging directory contents at return time. -/
def CreateBackup (runID dbID : String) (ph : PhaseResults) :
    BackupManifest × List StagedFile :=
  match ph.rolesErr with
  | some e => (createFailedManifest runID dbID ("roles dump failed: " ++ e), [])
  | none =>
    match ph.schemaErr with
    | some e =>
        (createFailedManifest runID dbID ("schema dump failed: " ++ e), [.rolesSql])
    | none =>
      match ph.dataErr with
      | some e =>
          (createFailedManifest runID dbID ("data dump failed: " ++ e),
           [.rolesSql, .schemaSql])
      | none =>
        match ph.archive with
        | .createFailed e =>
            (createFailedManifest runID dbID ("archive creation failed: " ++ e),
             [.rolesSql, .schemaSql, .dataSql])
        | .writeFailed e =>
            (createFailedManifest runID dbID ("archive creation failed: " ++ e),
             [.rolesSql, .schemaSql, .dataSql, .archiveTarGzTruncated])
        | .ok size =>
            let manifest : BackupManifest :=
              { runID := runID, databaseID := dbID, status := "success",
                files := [{ name := "backup-" ++ runID ++ ".tar.gz", size := size }],
                error := "", pgVersion := ph.pgVersion,
                databaseSizeBytes := ph.databaseSizeBytes }
            match ph.saveManifestErr with
            | some _ => (manifest, [.archiveTarGz])
            | none => (manifest, [.archiveTarGz, .manifestJson])

/-! ### Promotion of a finished backup (service.RunBackupJob loop body)

On `manifest.Status == "success" && len(manifest.Files) > 0` the service
creates the dated directory and renames the archive, then the manifest, each
guarded by an os.Stat on the staging source.  Each rename is atomic per file;
the list below is every state of the dated directory a concurrent reader can
observe during promotion (initially empty, then after each rename). -/

def promoteStates (m : BackupManifest) (staged : List StagedFile) :
    List (List StagedFile) :=
  if m.status = "success" ∧ 0 < m.files.length then
    let s0 : List StagedFile := []
    let s1 := if StagedFile.archiveTarGz ∈ staged then s0 ++ [StagedFile.archiveTarGz] else s0
    let s2 := if StagedFile.manifestJson ∈ staged then s1 ++ [StagedFile.manifestJson] else s1
    [s0, s1, s2]
  else [[]]

/-- Files present in the permanent dated directory once promotion finishes. -/
def promotedFiles (m : BackupManifest) (staged : List StagedFile) : List StagedFile :=
  ((promoteStates m staged).getLast?).getD []

/-! ### Orchestrator (service.RunBackupJob / service.RunBackupForProject)

The world carries the two Run State Store records; dated-directory contents
are covered by the promotion model above.  Each configured database supplies
its identifier, the HHMMSS component of its run id, and the phase oracle its
pipeline run will see.  A panic raised while iterating the backup loop is
modelled by `panicAt = some i`: databases before index i are processed, the
summary is never written, and the deferred lock clear still runs. -/

structure BackupResultEntry where
  databaseIdentifier : String
  runId : String
  status : String
  error : String
deriving DecidableEq

/-- The result map written to latest.json / returned from RunBackupJob,
restricted to the fields the spec's claims are about (timestamps are real
time and not modelled).  Fields that a given exit path never sets are none. -/
structure RunSummaryRecord where
  runId : Option String
  status : String
  error : Option String
  databasesTotal : Option Nat
  databasesSucceeded : Option Nat
  databasesFailed : Option Nat
  backups : Option (List BackupResultEntry)
deriving DecidableEq

structure World where
  running : RunningContent
  lastRun : Option RunSummaryRecord
deriving DecidableEq

structure DbSpec where
  identifier : String
  timeOfDay : String
  phases : PhaseResults
deriving DecidableEq

inductive JobEvent
  | writeRunning (b : Bool)
  | processDb (identifier : String)
  | writeLastRunEvent
deriving DecidableEq

inductive JobOutcome
  | result (r : RunSummaryRecord)
  | panicked
deriving DecidableEq

/-- Overall status derivation from the tail of RunBackupJob: starts out
"failed", becomes "success" when nothing failed, "partial" when something
succeeded as well. -/
def overallStatus (succeeded failed : Nat) : String :=
  if failed = 0 then "success"
  else if 0 < succeeded then "partial"
  else "failed"

structure LoopAcc where
  backupResults : List BackupResultEntry
  succeeded : Nat
  failed : Nat
deriving DecidableEq

/-- One iteration of the backup loop: run the pipeline, record the
per-database entry from the manifest, and bump the counters. -/
def backupLoopStep (backupDate : String) (acc : LoopAcc) (db : DbSpec) : LoopAcc :=
  let m := (CreateBackup (runIDFor db.identifier backupDate db.timeOfDay)
              db.identifier db.phases).1
  { backupResults := acc.backupResults ++
      [{ databaseIdentifier := m.databaseID, runId := m.runID,
         status := m.status, error := m.error }],
    succeeded := if m.status = "success" then acc.succeeded + 1 else acc.succeeded,
    failed := if m.status = "success" then acc.failed else acc.failed + 1 }

def backupLoop (backupDate : String) (dbs : List DbSpec) : LoopAcc :=
  dbs.foldl (backupLoopStep backupDate) ⟨[], 0, 0⟩

/-- The early return when the lock is observed held. -/
def alreadyRunningResult : RunSummaryRecord :=
  { runId := none, status := "failed", error := some "already_running",
    databasesTotal := none, databasesSucceeded := none, databasesFailed := none,
    backups := none }

/-- The summary written when no databases are configured. -/
def noDatabasesResult (runID : String) : RunSummaryRecord :=
  { runId := some runID, status := "failed", error := some "No databases configured",
    databasesTotal := none, databasesSucceeded := none, databasesFailed := none,
    backups := some [] }

/-- The summary of a completed run over a non-empty database list. -/
def completedResult (runID backupDate : String) (dbs : List DbSpec) : RunSummaryRecord :=
  let acc := backupLoop backupDate dbs
  { runId := some runID, status := overallStatus acc.succeeded acc.failed,
    error := none, databasesTotal := some dbs.length,
    databasesSucceeded := some acc.succeeded, databasesFailed := some acc.failed,
    backups := some acc.backupResults }

/-- Whether the modelled panic fires while the backup loop is still
iterating its databases. -/
def panicsInLoop (panicAt : Option Nat) (dbs : List DbSpec) : Bool :=
  match panicAt with
  | some i => decide (i < dbs.length)
  | none => false

/-- RunBackupJob.  Reads the lock; an unparseable running.json gives a nil
status whose dereference panics before anything is written.  A held lock
returns the already_running result without work.  Otherwise the lock is
written true, the body runs (zero-database early return, a modelled panic at
index i, or the full loop plus summary write), and the deferred write of
running=false closes every one of those paths. -/
def runBackupJob (w : World) (dbs : List DbSpec) (backupDate runID : String)
    (panicAt : Option Nat) : JobOutcome × World × List JobEvent :=
  match readServiceStatus w.running with
  | none => (.panicked, w, [])
  | some true => (.result alreadyRunningResult, w, [])
  | some false =>
      if dbs.isEmpty then
        let summary := noDatabasesResult runID
        (.result summary,
         { running := .valid false, lastRun := some summary },
         [.writeRunning true, .writeLastRunEvent, .writeRunning false])
      else if panicsInLoop panicAt dbs then
        (.panicked,
         { running := .valid false, lastRun := w.lastRun },
         .writeRunning true ::
           ((dbs.take (panicAt.getD 0)).map
              (fun db => JobEvent.processDb db.identifier) ++
            [.writeRunning false]))
      else
        let summary := completedResult runID backupDate dbs
        (.result summary,
         { running := .valid false, lastRun := some summary },
         .writeRunning true ::
           (dbs.map (fun db => JobEvent.processDb db.identifier) ++
            [.writeLastRunEvent, .writeRunning false]))

/-- GetDatabase: first configured database with the given identifier. -/
def getDatabase (dbs : List DbSpec) (identifier : String) : Option DbSpec :=
  dbs.find? (fun db => db.identifier = identifier)

inductive ProjectOutcome
  | errorNotFound
  | panicked
  | errorAlreadyRunning
  | result (entry : BackupResultEntry)
deriving DecidableEq

/-- RunBackupForProject: rejects an unknown identifier, then performs the same
lock-state read as RunBackupJob — with the same nil-pointer dereference when
running.json does not parse — and rejects outright (no lock written) when a
job is running; otherwise it runs the single pipeline.  It never writes the
lock or the last-run record, so the world passes through unchanged. -/
def runBackupForProject (w : World) (dbs : List DbSpec) (projectID backupDate : String) :
    ProjectOutcome × World :=
  match getDatabase dbs projectID with
  | none => (.errorNotFound, w)
  | some db =>
      match readServiceStatus w.running with
      | none => (.panicked, w)
      | some true => (.errorAlreadyRunning, w)
      | some false =>
          let m := (CreateBackup (runIDFor db.identifier backupDate db.timeOfDay)
                      db.identifier db.phases).1
          (.result { databaseIdentifier := m.databaseID, runId := m.runID,
                     status := m.status, error := m.error }, w)

/-! ### Two overlapping invocations of the lock acquisition (concurrency)

Each invocation, reduced to its effect on the shared lock, executes: read the
lock and branch; write the lock true; do the dump work (the whole staging /
promotion body); write the lock false.  The steps are atomic individually —
the Go code gives nothing stronger — and a schedule interleaves the two
invocations.  A rejected invocation is the already_running early return. -/

inductive LockPc
  | atRead
  | atSet
  | atWork
  | atClear
  | done
  | rejected
deriving DecidableEq

structure LockProc where
  pc : LockPc
  observed : Option Bool
  worked : Bool
deriving DecidableEq

structure LockSystem where
  lock : Bool
  procA : LockProc
  procB : LockProc
deriving DecidableEq

/-- One atomic step of a single invocation against the shared lock value.
Returns the new local state and the new lock value. -/
def stepProc (lock : Bool) (p : LockProc) : LockProc × Bool :=
  match p.pc with
  | .atRead =>
      if lock then ({ p with pc := .rejected, observed := some true }, lock)
      else ({ p with pc := .atSet, observed := some false }, lock)
  | .atSet => ({ p with pc := .atWork }, true)
  | .atWork => ({ p with pc := .atClear, worked := true }, lock)
  | .atClear => ({ p with pc := .done }, false)
  | .done => (p, lock)
  | .rejected => (p, lock)

/-- Scheduler choice: false steps invocation A, true steps invocation B. -/
def stepSystem (sys : LockSystem) (choice : Bool) : LockSystem :=
  if choice then
    let r := stepProc sys.lock sys.procB
    { sys with procB := r.1, lock := r.2 }
  else
    let r := stepProc sys.lock sys.procA
    { sys with procA := r.1, lock := r.2 }

def runSchedule (sys : LockSystem) (sched : List Bool) : LockSystem :=
  sched.foldl stepSystem sys

/-- Both invocations start at the lock read, against a released lock. -/
def initLockSystem : LockSystem :=
  { lock := false,
    procA := { pc := .atRead, observed := none, worked := false },
    procB := { pc := .atRead, observed := none, worked := false } }

/-- An invocation has proceeded past lock acquisition once it left the read
without being rejected. -/
def proceeds (p : LockProc) : Prop :=
  p.pc ≠ LockPc.atRead ∧ p.pc ≠ LockPc.rejected

instance (p : LockProc) : Decidable (proceeds p) := by
  unfold proceeds; infer_instance

def exactlyOneProceeds (sys : LockSystem) : Prop :=
  (proceeds sys.procA ∧ ¬ proceeds sys.procB) ∨
  (¬ proceeds sys.procA ∧ proceeds sys.procB)

instance (sys : LockSystem) : Decidable (exactlyOneProceeds sys) := by
  unfold exactlyOneProceeds; infer_instance

/-- The per-invocation invariant of the lock machine: an invocation past the
read proceeded exactly when it observed a released lock, a rejected
invocation observed a held lock and performed no work, and an invocation
still at the read has observed nothing and done nothing. -/
def ProcInv (p : LockProc) : Prop :=
  (proceeds p ↔ p.observed = some false) ∧
  (p.pc = LockPc.rejected → p.observed = some true ∧ p.worked = false) ∧
  (p.pc = LockPc.atRead → p.observed = none ∧ p.worked = false)

/-- An all-successful phase oracle, used to instantiate witnesses. -/
def allOkPhases : PhaseResults :=
  { rolesErr := none, schemaErr := none, dataErr := none,
    archive := ArchiveOutcome.ok 4096, saveManifestErr := none,
    pgVersion := "17.1", databaseSizeBytes := some 123456 }

/-! ## Theorems -/

/-- C7: an isolated-runner execution finishing with a nonzero exit code
returns an error whose message embeds the captured stderr, or, when stderr is
empty, the captured stdout; a zero exit code returns no error. -/
theorem runOnce_nonzero_exit_error_embeds_output (exitCode : Int)
    (stderrStr stdoutStr : String) :
    (exitCode = 0 → exitError exitCode stderrStr stdoutStr = none) ∧
    (exitCode ≠ 0 → ∃ msg, exitError exitCode stderrStr stdoutStr = some msg ∧
      (stderrStr ≠ "" → ∃ p q, msg = p ++ stderrStr ++ q) ∧
      (stderrStr = "" → ∃ p q, msg = p ++ stdoutStr ++ q)) := by
  constructor
  · intro h
    simp [exitError, h]
  · intro h
    by_cases he : stderrStr = ""
    · by_cases ho : stdoutStr = ""
      · refine ⟨"container exited with code " ++ toString exitCode,
          by simp [exitError, h, he, ho], fun hc => absurd he hc, fun _ => ?_⟩
        exact ⟨"container exited with code " ++ toString exitCode, "", by simp [ho]⟩
      · refine ⟨"container exited with code " ++ toString exitCode ++ ": " ++ stdoutStr,
          by simp [exitError, h, he, ho], fun hc => absurd he hc, fun _ => ?_⟩
        exact ⟨"container exited with code " ++ toString exitCode ++ ": ", "", by simp⟩
    · refine ⟨"container exited with code " ++ toString exitCode ++ ": " ++ stderrStr,
        by simp [exitError, h, he], fun _ => ?_, fun hc => absurd hc he⟩
      exact ⟨"container exited with code " ++ toString exitCode ++ ": ", "", by simp⟩

/-- Witness for C7 at a concrete nonzero exit with captured stderr, and at a
zero exit. -/
theorem runOnce_nonzero_exit_error_embeds_output_witness :
    (∃ msg, exitError 2 "boom" "out" = some msg ∧ ∃ p q, msg = p ++ "boom" ++ q) ∧
    exitError 0 "boom" "out" = none := by
  constructor
  · obtain ⟨msg, hm, hs, _⟩ :=
      (runOnce_nonzero_exit_error_embeds_output 2 "boom" "out").2 (by decide)
    exact ⟨msg, hm, hs (by decide)⟩
  · exact (runOnce_nonzero_exit_error_embeds_output 0 "boom" "out").1 rfl

/-- The deletion loop keeps exactly the entries the cutoff filter keeps and
counts exactly the directories it deletes. -/
theorem cleanupEntries_eq (cutoffDateStr : String) (l : List DirEntry) :
    cleanupEntries cutoffDateStr l =
      ((l.filter (shouldDelete cutoffDateStr)).length,
       l.filter (fun e => ! shouldDelete cutoffDateStr e)) := by
  induction l with
  | nil => rfl
  | cons e rest ih =>
      unfold cleanupEntries
      rw [ih]
      cases hd : e.isDir <;> cases hl : strLtb e.name cutoffDateStr <;>
        simp [shouldDelete, hd, hl, List.filter_cons]

/-- C4: one retention sweep removes exactly the subdirectories sorting before
the cutoff and leaves the later ones (and plain files) untouched; a missing
backup tree yields zero removed and no error. -/
theorem cleanupOldBackups_removes_exactly_pre_cutoff (entries : List DirEntry)
    (cutoffDateStr : String) :
    cleanupOldBackups (some entries) cutoffDateStr =
      ((entries.filter (shouldDelete cutoffDateStr)).length,
       some (entries.filter (fun e => ! shouldDelete cutoffDateStr e))) ∧
    cleanupOldBackups none cutoffDateStr = (0, none) := by
  refine ⟨?_, rfl⟩
  simp [cleanupOldBackups, cleanupEntries_eq]

/-- C5 counterexample: during WriteLastRun a concurrent reader of latest.json
can observe the truncated file — a state that is neither the old record nor
the new one, so the write is not atomic from the reader's point of view. -/
theorem writeLastRun_reader_observes_truncation :
    ¬ (∀ c ∈ observationsAt (latestRunPath "/backups") (FileContent.whole "OLD")
          (writeLastRunOps "/backups" "NEW"),
        c = FileContent.whole "OLD" ∨ c = FileContent.whole "NEW") := by
  decide

/-- C5 amended: both Run State Store writes are whole-record in-place
overwrites of the canonical file — the trace truncates and rewrites the
canonical path itself, uses no temporary location and no rename, and ends
with the complete new record visible. -/
theorem metadata_writes_inplace_whole_record (baseDir old newData : String) :
    (observationsAt (latestRunPath baseDir) (FileContent.whole old)
        (writeLastRunOps baseDir newData)).getLast? =
      some (FileContent.whole newData) ∧
    (observationsAt (runningJsonPath baseDir) (FileContent.whole old)
        (writeServiceStatusOps baseDir newData)).getLast? =
      some (FileContent.whole newData) ∧
    (∀ op ∈ writeLastRunOps baseDir newData,
        op = FsOp.mkdirAll (metadataDirPath baseDir) ∨
        op = FsOp.truncateFile (latestRunPath baseDir) ∨
        op = FsOp.writeBytes (latestRunPath baseDir) newData) ∧
    (∀ op ∈ writeServiceStatusOps baseDir newData,
        op = FsOp.mkdirAll (metadataDirPath baseDir) ∨
        op = FsOp.truncateFile (runningJsonPath baseDir) ∨
        op = FsOp.writeBytes (runningJsonPath baseDir) newData) := by
  refine ⟨?_, ?_, ?_, ?_⟩ <;>
    simp [observationsAt, writeLastRunOps, writeServiceStatusOps, writeFileOps,
      FsOp.applyAt]

/-- Witness for C5's amended statement at a concrete base directory. -/
theorem metadata_writes_inplace_whole_record_witness :
    (observationsAt (latestRunPath "/backups") (FileContent.whole "OLD")
        (writeLastRunOps "/backups" "NEW")).getLast? =
      some (FileContent.whole "NEW") :=
  (metadata_writes_inplace_whole_record "/backups" "OLD" "NEW").1

/-- Every CreateBackup run ends in one of two shapes: a failed manifest with a
phase-qualified error (beginning with a non-empty phase prefix) and no
manifest json in staging, or a success manifest listing exactly the archive,
with the staging directory holding the archive and, unless saving it failed,
the manifest json. -/
theorem createBackup_cases (runID dbID : String) (ph : PhaseResults) :
    (∃ pre msg staged, 0 < pre.length ∧
        CreateBackup runID dbID ph =
          (createFailedManifest runID dbID (pre ++ msg), staged) ∧
        StagedFile.manifestJson ∉ staged) ∨
    (∃ size staged,
        CreateBackup runID dbID ph =
          ({ runID := runID, databaseID := dbID, status := "success",
             files := [{ name := "backup-" ++ runID ++ ".tar.gz", size := size }],
             error := "", pgVersion := ph.pgVersion,
             databaseSizeBytes := ph.databaseSizeBytes }, staged) ∧
        (staged = [StagedFile.archiveTarGz] ∨
         staged = [StagedFile.archiveTarGz, StagedFile.manifestJson])) := by
  obtain ⟨re, se, de, ar, sm, pv, dsb⟩ := ph
  cases re with
  | some e => exact Or.inl ⟨"roles dump failed: ", e, _, by decide, rfl, by decide⟩
  | none =>
    cases se with
    | some e => exact Or.inl ⟨"schema dump failed: ", e, _, by decide, rfl, by decide⟩
    | none =>
      cases de with
      | some e => exact Or.inl ⟨"data dump failed: ", e, _, by decide, rfl, by decide⟩
      | none =>
        cases ar with
        | createFailed e =>
            exact Or.inl ⟨"archive creation failed: ", e, _, by decide, rfl, by decide⟩
        | writeFailed e =>
            exact Or.inl ⟨"archive creation failed: ", e, _, by decide, rfl, by decide⟩
        | ok size =>
            cases sm with
            | some e => exact Or.inr ⟨size, _, rfl, Or.inl rfl⟩
            | none => exact Or.inr ⟨size, _, rfl, Or.inr rfl⟩

/-- C3: every manifest the pipeline produces couples status and content — a
success manifest has a non-empty file list including the archive and an empty
error; a failed manifest has a non-empty error and no archive entry. -/
theorem createBackup_manifest_status_coupling (runID dbID : String) (ph : PhaseResults) :
    ((CreateBackup runID dbID ph).1.status = "success" →
        (CreateBackup runID dbID ph).1.files ≠ [] ∧
        (∃ f ∈ (CreateBackup runID dbID ph).1.files,
            f.name = "backup-" ++ runID ++ ".tar.gz") ∧
        (CreateBackup runID dbID ph).1.error = "") ∧
    ((CreateBackup runID dbID ph).1.status = "failed" →
        (CreateBackup runID dbID ph).1.error ≠ "" ∧
        ∀ f ∈ (CreateBackup runID dbID ph).1.files,
            f.name ≠ "backup-" ++ runID ++ ".tar.gz") := by
  rcases createBackup_cases runID dbID ph with
    ⟨pre, msg, staged, hpre, heq, -⟩ | ⟨size, staged, heq, -⟩
  · rw [heq]
    constructor
    · intro h
      exact absurd h (by simp [createFailedManifest])
    · intro _
      exact ⟨prefixed_ne_empty pre msg hpre, by simp [createFailedManifest]⟩
  · rw [heq]
    constructor
    · intro _
      exact ⟨by simp,
        ⟨{ name := "backup-" ++ runID ++ ".tar.gz", size := size }, by simp, rfl⟩, rfl⟩
    · intro h
      exact absurd h (by simp)

/-- Witness for C3 at an all-successful pipeline run. -/
theorem createBackup_manifest_status_coupling_witness :
    (CreateBackup "acme-2024-06-01-120000" "acme" allOkPhases).1.files ≠ [] ∧
    (∃ f ∈ (CreateBackup "acme-2024-06-01-120000" "acme" allOkPhases).1.files,
        f.name = "backup-" ++ "acme-2024-06-01-120000" ++ ".tar.gz") ∧
    (CreateBackup "acme-2024-06-01-120000" "acme" allOkPhases).1.error = "" :=
  (createBackup_manifest_status_coupling "acme-2024-06-01-120000" "acme"
    allOkPhases).1 rfl

/-- C10: a pipeline run that ends in a failed manifest leaves no manifest
json in the staging directory and promotes nothing into the dated directory;
the manifest json reaches disk only on a successful run. -/
theorem failed_pipeline_writes_no_manifest_file (runID dbID : String) (ph : PhaseResults) :
    ((CreateBackup runID dbID ph).1.status = "failed" →
        StagedFile.manifestJson ∉ (CreateBackup runID dbID ph).2 ∧
        promotedFiles (CreateBackup runID dbID ph).1 (CreateBackup runID dbID ph).2 = []) ∧
    (StagedFile.manifestJson ∈ (CreateBackup runID dbID ph).2 →
        (CreateBackup runID dbID ph).1.status = "success") := by
  rcases createBackup_cases runID dbID ph with
    ⟨pre, msg, staged, hpre, heq, hnm⟩ | ⟨size, staged, heq, hst⟩
  · rw [heq]
    refine ⟨fun _ => ⟨hnm, ?_⟩, fun hmem => absurd hmem hnm⟩
    simp [promotedFiles, promoteStates, createFailedManifest]
  · rw [heq]
    refine ⟨fun h => absurd h (by simp), fun _ => rfl⟩

/-- Witness for C10 at a pipeline run whose schema phase fails. -/
theorem failed_pipeline_writes_no_manifest_file_witness :
    StagedFile.manifestJson ∉
      (CreateBackup "acme-2024-06-01-120000" "acme"
        { allOkPhases with schemaErr := some "exit 1" }).2 ∧
    promotedFiles
      (CreateBackup "acme-2024-06-01-120000" "acme"
        { allOkPhases with schemaErr := some "exit 1" }).1
      (CreateBackup "acme-2024-06-01-120000" "acme"
        { allOkPhases with schemaErr := some "exit 1" }).2 = [] :=
  (failed_pipeline_writes_no_manifest_file "acme-2024-06-01-120000" "acme"
    { allOkPhases with schemaErr := some "exit 1" }).1 rfl

/-- C6 counterexample: promotion renames the archive and the manifest in two
separate steps, so a concurrent reader of the dated directory observes the
state holding the archive without its manifest. -/
theorem promotion_archive_visible_without_manifest :
    ¬ (∀ s ∈ promoteStates
          (CreateBackup "acme-2024-06-01-120000" "acme" allOkPhases).1
          (CreateBackup "acme-2024-06-01-120000" "acme" allOkPhases).2,
        (StagedFile.archiveTarGz ∈ s ↔ StagedFile.manifestJson ∈ s)) := by
  decide

/-- C6 amended: each promotion rename is atomic per file — no state of the
dated directory holds a partially-written file, and the manifest is never
visible without the archive (the archive moves first); when promotion of a
successful run finishes, the archive is visible, together with the manifest
whenever the manifest json was staged.  Between the two renames, however, the
archive is visible alone. -/
theorem promotion_per_file_atomic_archive_first (runID dbID : String) (ph : PhaseResults) :
    (∀ s ∈ promoteStates (CreateBackup runID dbID ph).1 (CreateBackup runID dbID ph).2,
        (StagedFile.manifestJson ∈ s → StagedFile.archiveTarGz ∈ s) ∧
        StagedFile.archiveTarGzTruncated ∉ s) ∧
    ((CreateBackup runID dbID ph).1.status = "success" →
        StagedFile.archiveTarGz ∈
          promotedFiles (CreateBackup runID dbID ph).1 (CreateBackup runID dbID ph).2 ∧
        (StagedFile.manifestJson ∈ (CreateBackup runID dbID ph).2 →
            StagedFile.manifestJson ∈
              promotedFiles (CreateBackup runID dbID ph).1 (CreateBackup runID dbID ph).2)) := by
  rcases createBackup_cases runID dbID ph with
    ⟨pre, msg, staged, hpre, heq, hnm⟩ | ⟨size, staged, heq, hst⟩
  · rw [heq]
    constructor
    · intro s hs
      simp [promoteStates, createFailedManifest] at hs
      simp [hs]
    · intro h
      exact absurd h (by simp [createFailedManifest])
  · rw [heq]
    rcases hst with hst | hst <;> subst hst
    · constructor
      · intro s hs
        simp [promoteStates] at hs
        rcases hs with rfl | rfl <;> simp
      · intro _
        constructor
        · simp [promotedFiles, promoteStates]
        · simp [promotedFiles, promoteStates]
    · constructor
      · intro s hs
        simp [promoteStates] at hs
        rcases hs with rfl | rfl | rfl <;> simp
      · intro _
        constructor
        · simp [promotedFiles, promoteStates]
        · simp [promotedFiles, promoteStates]

/-- Witness for C6's amended statement at an all-successful pipeline run. -/
theorem promotion_per_file_atomic_archive_first_witness :
    StagedFile.archiveTarGz ∈
      promotedFiles (CreateBackup "acme-2024-06-01-120000" "acme" allOkPhases).1
        (CreateBackup "acme-2024-06-01-120000" "acme" allOkPhases).2 :=
  ((promotion_per_file_atomic_archive_first "acme-2024-06-01-120000" "acme"
    allOkPhases).2 rfl).1

/-- C1: every invocation of RunBackupJob that proceeds past the
already-running check — whatever mix of successes and failures its loop sees,
and even when a panic is raised during the backup loop — ends with the lock
cleared: the event trace writes running=true first, performs dump work only
in between, and its final action is the deferred write of running=false, so a
subsequent read of running.json reports not running. -/
theorem runBackupJob_lock_released_on_every_exit (w : World) (dbs : List DbSpec)
    (backupDate runID : String) (panicAt : Option Nat)
    (h : readServiceStatus w.running = some false) :
    (runBackupJob w dbs backupDate runID panicAt).2.1.running =
      RunningContent.valid false ∧
    readServiceStatus (runBackupJob w dbs backupDate runID panicAt).2.1.running =
      some false ∧
    ∃ mid, (runBackupJob w dbs backupDate runID panicAt).2.2 =
        JobEvent.writeRunning true :: (mid ++ [JobEvent.writeRunning false]) ∧
      ∀ b, JobEvent.writeRunning b ∉ mid := by
  unfold runBackupJob
  rw [h]
  by_cases hdbs : dbs.isEmpty
  · rw [if_pos hdbs]
    exact ⟨rfl, rfl, [JobEvent.writeLastRunEvent], rfl, by intro b; simp⟩
  · rw [if_neg hdbs]
    by_cases hpl : panicsInLoop panicAt dbs
    · rw [if_pos hpl]
      refine ⟨rfl, rfl,
        (dbs.take (panicAt.getD 0)).map (fun db => JobEvent.processDb db.identifier),
        rfl, ?_⟩
      intro b hmem
      obtain ⟨db, -, heq⟩ := List.mem_map.mp hmem
      exact JobEvent.noConfusion heq
    · rw [if_neg hpl]
      refine ⟨rfl, rfl,
        dbs.map (fun db => JobEvent.processDb db.identifier) ++
          [JobEvent.writeLastRunEvent], by simp, ?_⟩
      intro b
      simp

/-- Witness for C1: a run over one database with a failing data phase still
ends with the lock cleared. -/
theorem runBackupJob_lock_released_on_every_exit_witness :
    (runBackupJob ⟨RunningContent.absent, none⟩
        [⟨"acme", "120000", { allOkPhases with dataErr := some "exit 1" }⟩]
        "2024-06-01" "run-20240601-120000" none).2.1.running =
      RunningContent.valid false :=
  (runBackupJob_lock_released_on_every_exit ⟨RunningContent.absent, none⟩
    [⟨"acme", "120000", { allOkPhases with dataErr := some "exit 1" }⟩]
    "2024-06-01" "run-20240601-120000" none rfl).1

/-- C2 counterexample: the zero-database invocation produces a summary whose
status is "failed" while its failed count is absent (zero), so the claimed
biconditional "status is success iff failed count is 0" does not hold for
every produced Run Summary. -/
theorem overallStatus_claim_fails_on_zero_databases :
    ¬ (∀ (w : World) (dbs : List DbSpec) (backupDate runID : String)
         (r : RunSummaryRecord),
        (runBackupJob w dbs backupDate runID none).1 = JobOutcome.result r →
        (r.status = "success" ↔ r.databasesFailed.getD 0 = 0)) := by
  intro hclaim
  have := hclaim ⟨RunningContent.absent, none⟩ [] "2024-06-01" "run-x"
    (noDatabasesResult "run-x") rfl
  revert this
  decide

/-- The status string computed at the end of RunBackupJob, characterized by
the two counters. -/
theorem overallStatus_characterization (s f : Nat) :
    (overallStatus s f = "success" ↔ f = 0) ∧
    (overallStatus s f = "failed" ↔ (s = 0 ∧ 0 < f)) ∧
    (overallStatus s f = "partial" ↔ (0 < s ∧ 0 < f)) := by
  unfold overallStatus
  by_cases hf : f = 0 <;> by_cases hs : 0 < s <;> simp [hf, hs] <;> omega

/-- C2 amended: every invocation proceeding past the lock check writes a Run
Summary; for a non-empty database list the status derivation holds — success
iff failed count 0, failed iff succeeded 0 and failed positive, partial iff
both positive — while the zero-database invocation instead reports status
"failed" with the explicit no-databases error and counters left unset. -/
theorem runBackupJob_status_derivation_amended (w : World) (dbs : List DbSpec)
    (backupDate runID : String) (h : readServiceStatus w.running = some false) :
    ∃ r, (runBackupJob w dbs backupDate runID none).1 = JobOutcome.result r ∧
      (runBackupJob w dbs backupDate runID none).2.1.lastRun = some r ∧
      (dbs ≠ [] →
        (r.status = "success" ↔ r.databasesFailed = some 0) ∧
        (r.status = "failed" ↔ (r.databasesSucceeded = some 0 ∧
            ∃ k, r.databasesFailed = some k ∧ 0 < k)) ∧
        (r.status = "partial" ↔ ((∃ k, r.databasesSucceeded = some k ∧ 0 < k) ∧
            (∃ k, r.databasesFailed = some k ∧ 0 < k)))) ∧
      (dbs = [] → r.status = "failed" ∧
        r.error = some "No databases configured" ∧
        r.databasesFailed = none) := by
  unfold runBackupJob
  rw [h]
  by_cases hdbs : dbs.isEmpty
  · have hnil : dbs = [] := by
      cases dbs with
      | nil => rfl
      | cons a l => exact absurd hdbs (by simp)
    rw [if_pos hdbs]
    exact ⟨noDatabasesResult runID, rfl, rfl, fun hne => absurd hnil hne,
      fun _ => ⟨rfl, rfl, rfl⟩⟩
  · have hne : dbs ≠ [] := by
      intro hnil
      rw [hnil] at hdbs
      exact absurd rfl hdbs
    rw [if_neg hdbs]
    refine ⟨completedResult runID backupDate dbs, rfl, rfl, ?_, fun hnil => absurd hnil hne⟩
    intro _
    have hc := overallStatus_characterization (backupLoop backupDate dbs).succeeded
      (backupLoop backupDate dbs).failed
    refine ⟨?_, ?_, ?_⟩ <;> simp [completedResult, hc.1, hc.2.1, hc.2.2]

/-- Witness for C2's amended statement: one all-successful database yields an
overall status of "success", and the summary is written to latest.json. -/
theorem runBackupJob_status_derivation_amended_witness :
    (completedResult "run-x" "2024-06-01" [⟨"acme", "120000", allOkPhases⟩]).status =
      "success" := by
  obtain ⟨r, hr, hlast, hderiv, -⟩ :=
    runBackupJob_status_derivation_amended ⟨RunningContent.absent, none⟩
      [⟨"acme", "120000", allOkPhases⟩] "2024-06-01" "run-x" rfl
  have h0 : (runBackupJob ⟨RunningContent.absent, none⟩ [⟨"acme", "120000", allOkPhases⟩]
      "2024-06-01" "run-x" none).1 =
      JobOutcome.result (completedResult "run-x" "2024-06-01"
        [⟨"acme", "120000", allOkPhases⟩]) := rfl
  have hrr : completedResult "run-x" "2024-06-01" [⟨"acme", "120000", allOkPhases⟩] = r :=
    (JobOutcome.result.injEq _ _).mp (h0.symm.trans hr)
  rw [hrr]
  refine (hderiv (by simp)).1.mpr ?_
  rw [← hrr]
  decide

/-- C9: when running.json exists but does not parse, ReadServiceStatus hands
back a nil status with the error, and both RunBackupJob and
RunBackupForProject merely log the error and then dereference the nil status,
so the invocation panics: no result is returned, no Run Summary is written,
and the lock file is untouched. -/
theorem invalid_lock_state_panics (w : World) (dbs : List DbSpec)
    (backupDate runID projectID : String) (panicAt : Option Nat) (db : DbSpec)
    (h : w.running = RunningContent.invalid)
    (hdb : getDatabase dbs projectID = some db) :
    readServiceStatus w.running = none ∧
    runBackupJob w dbs backupDate runID panicAt = (JobOutcome.panicked, w, []) ∧
    runBackupForProject w dbs projectID backupDate = (ProjectOutcome.panicked, w) := by
  obtain ⟨wr, wl⟩ := w
  simp only at h
  subst h
  refine ⟨rfl, rfl, ?_⟩
  unfold runBackupForProject
  rw [hdb]
  rfl

/-- C8 counterexample: the check-then-set lock acquisition is not atomic.
In the interleaving where both invocations read the lock before either
writes it, both observe the same (released) lock state and both proceed past
acquisition, so "exactly one proceeds" fails. -/
theorem lock_check_then_set_both_proceed :
    ¬ (∀ (sched : List Bool) (v : Bool),
        (runSchedule initLockSystem sched).procA.observed = some v →
        (runSchedule initLockSystem sched).procB.observed = some v →
        exactlyOneProceeds (runSchedule initLockSystem sched)) := by
  intro hclaim
  have := hclaim [false, true] false
  revert this
  decide

theorem stepProc_preserves_inv (lock : Bool) (p : LockProc) (hp : ProcInv p) :
    ProcInv (stepProc lock p).1 := by
  obtain ⟨pc, obs, wk⟩ := p
  obtain ⟨h1, h2, h3⟩ := hp
  cases pc with
  | atRead =>
      obtain ⟨ho, hw⟩ := h3 rfl
      cases lock with
      | true =>
          exact ⟨by simp [stepProc, proceeds], by simp [stepProc, hw],
            by simp [stepProc]⟩
      | false =>
          exact ⟨by simp [stepProc, proceeds], by simp [stepProc],
            by simp [stepProc]⟩
  | atSet =>
      have hobs : obs = some false := h1.mp (by simp [proceeds])
      exact ⟨by simp [stepProc, proceeds, hobs], by simp [stepProc],
        by simp [stepProc]⟩
  | atWork =>
      have hobs : obs = some false := h1.mp (by simp [proceeds])
      exact ⟨by simp [stepProc, proceeds, hobs], by simp [stepProc],
        by simp [stepProc]⟩
  | atClear =>
      have hobs : obs = some false := h1.mp (by simp [proceeds])
      exact ⟨by simp [stepProc, proceeds, hobs], by simp [stepProc],
        by simp [stepProc]⟩
  | done =>
      have hobs : obs = some false := h1.mp (by simp [proceeds])
      exact ⟨by simp [stepProc, proceeds, hobs], by simp [stepProc],
        by simp [stepProc]⟩
  | rejected =>
      obtain ⟨ho, hw⟩ := h2 rfl
      exact ⟨by simp [stepProc, proceeds, ho], by simp [stepProc, ho, hw],
        by simp [stepProc]⟩

theorem runSchedule_preserves_inv (sys : LockSystem) (sched : List Bool)
    (h : ProcInv sys.procA ∧ ProcInv sys.procB) :
    ProcInv (runSchedule sys sched).procA ∧ ProcInv (runSchedule sys sched).procB := by
  induction sched generalizing sys with
  | nil => exact h
  | cons c rest ih =>
      apply ih
      cases c with
      | false =>
          exact ⟨stepProc_preserves_inv sys.lock sys.procA h.1, h.2⟩
      | true =>
          exact ⟨h.1, stepProc_preserves_inv sys.lock sys.procB h.2⟩

/-- C8 amended: under any interleaving of two overlapping invocations, each
one proceeds past lock acquisition exactly when its (non-atomic) lock read
observed running=false; an invocation whose read observed running=true is the
already_running rejection and performs none of the dump/staging work.  Hence
exactly one of the two proceeds precisely when exactly one read observed the
released lock — which the check-then-set sequence does not guarantee when
both reads precede both writes. -/
theorem lock_observation_characterizes_proceeding (sched : List Bool) :
    (proceeds (runSchedule initLockSystem sched).procA ↔
        (runSchedule initLockSystem sched).procA.observed = some false) ∧
    (proceeds (runSchedule initLockSystem sched).procB ↔
        (runSchedule initLockSystem sched).procB.observed = some false) ∧
    ((runSchedule initLockSystem sched).procA.pc = LockPc.rejected →
        (runSchedule initLockSystem sched).procA.observed = some true ∧
        (runSchedule initLockSystem sched).procA.worked = false) ∧
    ((runSchedule initLockSystem sched).procB.pc = LockPc.rejected →
        (runSchedule initLockSystem sched).procB.observed = some true ∧
        (runSchedule initLockSystem sched).procB.worked = false) ∧
    (exactlyOneProceeds (runSchedule initLockSystem sched) ↔
        ((runSchedule initLockSystem sched).procA.observed = some false ↔
         ¬ (runSchedule initLockSystem sched).procB.observed = some false)) := by
  obtain ⟨hA, hB⟩ := runSchedule_preserves_inv initLockSystem sched
    (by constructor <;> exact ⟨by simp [proceeds, initLockSystem], by simp [initLockSystem],
      by simp [initLockSystem]⟩)
  refine ⟨hA.1, hB.1, hA.2.1, hB.2.1, ?_⟩
  unfold exactlyOneProceeds
  rw [hA.1, hB.1]
  tauto

/-- Witness for C8's amended statement: when the second read happens after
the first invocation has written the lock, exactly one invocation proceeds. -/
theorem lock_observation_characterizes_proceeding_witness :
    exactlyOneProceeds (runSchedule initLockSystem [false, false, true]) := by
  have h := lock_observation_characterizes_proceeding [false, false, true]
  exact h.2.2.2.2.mpr (by decide)

/-- Witness for C9: a concrete world with an unparseable running.json makes
both entry points panic. -/
theorem invalid_lock_state_panics_witness :
    runBackupJob ⟨RunningContent.invalid, none⟩ [⟨"acme", "120000", allOkPhases⟩]
        "2024-06-01" "run-x" none =
      (JobOutcome.panicked, ⟨RunningContent.invalid, none⟩, []) ∧
    runBackupForProject ⟨RunningContent.invalid, none⟩
        [⟨"acme", "120000", allOkPhases⟩] "acme" "2024-06-01" =
      (ProjectOutcome.panicked, ⟨RunningContent.invalid, none⟩) :=
  ⟨(invalid_lock_state_panics ⟨RunningContent.invalid, none⟩
      [⟨"acme", "120000", allOkPhases⟩] "2024-06-01" "run-x" "acme" none
      ⟨"acme", "120000", allOkPhases⟩ rfl (by simp [getDatabase])).2.1,
   (invalid_lock_state_panics ⟨RunningContent.invalid, none⟩
      [⟨"acme", "120000", allOkPhases⟩] "2024-06-01" "run-x" "acme" none
      ⟨"acme", "120000", allOkPhases⟩ rfl (by simp [getDatabase])).2.2⟩

end PgBackup
